import Mathlib

/-!
Verification of the alignment-index query operations of the
Gospel-Language-Study backend (`src/backend/src/gls/domain/models.py`)
and of the alignment parsing boundary
(`src/backend/src/gls/infrastructure/storage/talk_storage.py`).

Python `float` timestamps are embedded as `ℚ`: the claims under study are
order-theoretic (closed-interval membership, first-match scanning) and do
not depend on rounding, so a linearly ordered field with decidable
comparison is the faithful shallow embedding.  Python `None` results are
embedded as `Option.none`.
-/

namespace GLS

/-- Embedding of `Language` (`models.py`): a `str` enum of supported
language codes. -/
inductive Language where
  | english
  | mandarinSimplified
  | mandarinTraditional
  | czech
  | spanish
  | russian
  | portuguese
  | french
  | german
  | korean
  | japanese
deriving DecidableEq, Repr

/-- Embedding of the value object `TalkId` (`models.py`): a wrapper
around the identifier string. -/
structure TalkId where
  value : String
deriving DecidableEq, Repr

/-- Embedding of the dataclass `WordAlignment` (`models.py`):
word-level timing information from audio alignment. -/
structure WordAlignment where
  word : String
  start_time : ℚ
  end_time : ℚ
  confidence : ℚ
deriving DecidableEq, Repr

/-- Embedding of the dataclass `SegmentAlignment` (`models.py`):
sentence/paragraph level alignment with word details. -/
structure SegmentAlignment where
  segment_id : String
  text : String
  start_time : ℚ
  end_time : ℚ
  words : List WordAlignment
deriving DecidableEq, Repr

/-- Embedding of the dataclass `Alignment` (`models.py`): full alignment
data for a talk version. -/
structure Alignment where
  talk_id : TalkId
  language : Language
  segments : List SegmentAlignment
deriving DecidableEq, Repr

/-- The guard `segment.start_time <= time <= segment.end_time` of the
scanning loops in `models.py` (closed-interval membership). -/
def SegmentAlignment.containsTime (s : SegmentAlignment) (t : ℚ) : Prop :=
  s.start_time ≤ t ∧ t ≤ s.end_time

instance (s : SegmentAlignment) (t : ℚ) : Decidable (s.containsTime t) :=
  inferInstanceAs (Decidable (s.start_time ≤ t ∧ t ≤ s.end_time))

/-- The guard `word.start_time <= time <= word.end_time` of the word
scanning loop in `find_word_at_time` (closed-interval membership). -/
def WordAlignment.containsTime (w : WordAlignment) (t : ℚ) : Prop :=
  w.start_time ≤ t ∧ t ≤ w.end_time

instance (w : WordAlignment) (t : ℚ) : Decidable (w.containsTime t) :=
  inferInstanceAs (Decidable (w.start_time ≤ t ∧ t ≤ w.end_time))

/-- A Python `for x in xs: if p(x): return x` / `return None` loop:
returns the first element satisfying `p`, else `none`. -/
def findFirst {α : Type _} (p : α → Prop) [DecidablePred p] : List α → Option α
  | [] => none
  | x :: rest => if p x then some x else findFirst p rest

/-- A Python `for i, x in enumerate(xs): if p(x): return i` / `return None`
loop: the accumulator `i` carries the index of the head of the remaining
list. -/
def findFirstIdx {α : Type _} (p : α → Prop) [DecidablePred p] :
    Nat → List α → Option Nat
  | _, [] => none
  | i, x :: rest => if p x then some i else findFirstIdx p (i + 1) rest

/-- Embedding of `Alignment.find_segment_at_time` (`models.py` lines
134-142): linear scan over `self.segments`, returning the first segment
whose closed interval contains `time`, else `None`. -/
def Alignment.find_segment_at_time (self : Alignment) (time : ℚ) :
    Option SegmentAlignment :=
  findFirst (fun segment => segment.containsTime time) self.segments

/-- Embedding of `Alignment.find_word_at_time` (`models.py` lines
144-152): resolves the segment first ( `if not segment: return None` ),
then scans that segment's `words`. -/
def Alignment.find_word_at_time (self : Alignment) (time : ℚ) :
    Option WordAlignment :=
  match self.find_segment_at_time time with
  | none => none
  | some segment => findFirst (fun word => word.containsTime time) segment.words

/-- Embedding of `Alignment.get_segment_index_at_time` (`models.py` lines
154-159): `for i, segment in enumerate(self.segments)`, returning the
first matching zero-based index, else `None`. -/
def Alignment.get_segment_index_at_time (self : Alignment) (time : ℚ) :
    Option Nat :=
  findFirstIdx (fun segment => segment.containsTime time) 0 self.segments

/-! ### Generic facts about the scanning loops -/

theorem findFirst_eq_none_iff {α : Type _} (p : α → Prop) [DecidablePred p]
    (l : List α) : findFirst p l = none ↔ ∀ x ∈ l, ¬ p x := by
  induction l with
  | nil => simp [findFirst]
  | cons x rest ih =>
    by_cases hx : p x <;> simp [findFirst, hx, ih]

theorem findFirst_some_sat {α : Type _} (p : α → Prop) [DecidablePred p]
    (l : List α) (x : α) (h : findFirst p l = some x) : p x ∧ x ∈ l := by
  induction l with
  | nil => simp [findFirst] at h
  | cons y rest ih =>
    by_cases hy : p y
    · simp [findFirst, hy] at h
      subst h
      exact ⟨hy, List.mem_cons_self _ _⟩
    · simp [findFirst, hy] at h
      obtain ⟨hp, hm⟩ := ih h
      exact ⟨hp, List.mem_cons_of_mem _ hm⟩

theorem findFirst_some_first {α : Type _} (p : α → Prop) [DecidablePred p]
    (l : List α) (x : α) (h : findFirst p l = some x) :
    ∃ k, ∃ hk : k < l.length, l.get ⟨k, hk⟩ = x ∧ p x ∧
      ∀ m, ∀ hm : m < k, ¬ p (l.get ⟨m, hm.trans hk⟩) := by
  induction l with
  | nil => simp [findFirst] at h
  | cons y rest ih =>
    by_cases hy : p y
    · simp [findFirst, hy] at h
      subst h
      exact ⟨0, by simp, rfl, hy, fun m hm => absurd hm (Nat.not_lt_zero m)⟩
    · simp [findFirst, hy] at h
      obtain ⟨k, hk, hget, hp, hmin⟩ := ih h
      refine ⟨k + 1, Nat.succ_lt_succ hk, hget, hp, ?_⟩
      intro m hm
      match m with
      | 0 => exact hy
      | Nat.succ m => exact hmin m (Nat.lt_of_succ_lt_succ hm)

theorem findFirst_eq_some_of_first {α : Type _} (p : α → Prop)
    [DecidablePred p] (l : List α) (k : Nat) (hk : k < l.length)
    (hp : p (l.get ⟨k, hk⟩))
    (hmin : ∀ x ∈ l.take k, ¬ p x) :
    findFirst p l = some (l.get ⟨k, hk⟩) := by
  induction l generalizing k with
  | nil => exact absurd hk (Nat.not_lt_zero k)
  | cons y rest ih =>
    match k with
    | 0 =>
      have hy : p y := hp
      simp [findFirst, hy]
    | Nat.succ k =>
      have hy : ¬ p y := hmin y (by simp)
      have hrest : ∀ x ∈ rest.take k, ¬ p x := by
        intro x hx
        exact hmin x (by simpa using List.mem_cons_of_mem y hx)
      simpa [findFirst, hy] using
        ih k (Nat.lt_of_succ_lt_succ hk) hp hrest

theorem findFirstIdx_eq_none_iff {α : Type _} (p : α → Prop)
    [DecidablePred p] (l : List α) (i : Nat) :
    findFirstIdx p i l = none ↔ findFirst p l = none := by
  induction l generalizing i with
  | nil => simp [findFirstIdx, findFirst]
  | cons x rest ih =>
    by_cases hx : p x <;> simp [findFirstIdx, findFirst, hx, ih]

theorem findFirstIdx_some {α : Type _} (p : α → Prop) [DecidablePred p]
    (l : List α) (i j : Nat) (h : findFirstIdx p i l = some j) :
    ∃ k, ∃ hk : k < l.length, j = i + k ∧
      findFirst p l = some (l.get ⟨k, hk⟩) := by
  induction l generalizing i with
  | nil => simp [findFirstIdx] at h
  | cons x rest ih =>
    by_cases hx : p x
    · simp [findFirstIdx, hx] at h
      exact ⟨0, by simp, by omega, by simp [findFirst, hx]⟩
    · simp [findFirstIdx, hx] at h
      obtain ⟨k, hk, hj, hfind⟩ := ih (i + 1) h
      exact ⟨k + 1, Nat.succ_lt_succ hk, by omega, by simpa [findFirst, hx]⟩


/-! ### The worked scenario from the specification -/

/-- The word `{"Hello", 0.0, 0.5, 0.99}` of the worked scenario. -/
def helloWord : WordAlignment :=
  { word := "Hello", start_time := 0, end_time := 0.5, confidence := 0.99 }

/-- The word `{"world", 0.6, 1.2, 0.95}` of the worked scenario. -/
def worldWord : WordAlignment :=
  { word := "world", start_time := 0.6, end_time := 1.2, confidence := 0.95 }

/-- The segment `seg-000` (0.0 to 2.5) of the worked scenario. -/
def seg000 : SegmentAlignment :=
  { segment_id := "seg-000", text := "Hello world", start_time := 0,
    end_time := 2.5, words := [helloWord, worldWord] }

/-- The segment `seg-001` (2.5 to 5.0, no words) of the worked scenario. -/
def seg001 : SegmentAlignment :=
  { segment_id := "seg-001", text := "", start_time := 2.5, end_time := 5,
    words := [] }

/-- The two-segment alignment of the worked scenario. -/
def sampleAlignment : Alignment :=
  { talk_id := { value := "2025-10-58-oaks" }, language := Language.english,
    segments := [seg000, seg001] }

/-- C7: on the concrete scenario, `find_segment_at_time 2.5` returns
`seg-000` (the boundary belongs to the earlier segment by scan order),
`find_word_at_time 0.55` is not-found (gap between the words),
`find_word_at_time 0.0` returns "Hello", `find_segment_at_time 6.0` is
not-found, and `get_segment_index_at_time 3.0` returns index 1. -/
theorem c7_worked_scenario :
    sampleAlignment.find_segment_at_time 2.5 = some seg000 ∧
    sampleAlignment.find_word_at_time 0.55 = none ∧
    sampleAlignment.find_word_at_time 0 = some helloWord ∧
    sampleAlignment.find_segment_at_time 6 = none ∧
    sampleAlignment.get_segment_index_at_time 3 = some 1 := by
  refine ⟨?_, ?_, ?_, ?_, ?_⟩ <;>
    norm_num [Alignment.find_segment_at_time, Alignment.find_word_at_time,
      Alignment.get_segment_index_at_time, findFirst, findFirstIdx,
      SegmentAlignment.containsTime, WordAlignment.containsTime,
      sampleAlignment, seg000, seg001, helloWord, worldWord]


/-! ### Further concrete alignments used as witnesses and counterexamples -/

/-- An alignment with no segments at all. -/
def emptyAlignment : Alignment :=
  { talk_id := { value := "2024-04-holland-tomorrow" },
    language := Language.english, segments := [] }

/-- A wide segment 0.0 to 10.0, earlier in sequence order. -/
def segA : SegmentAlignment :=
  { segment_id := "seg-A", text := "wide", start_time := 0, end_time := 10,
    words := [] }

/-- A narrow segment 2.0 to 3.0, fully inside `segA`, later in sequence
order. -/
def segB : SegmentAlignment :=
  { segment_id := "seg-B", text := "narrow", start_time := 2, end_time := 3,
    words := [] }

/-- A malformed alignment whose two segments overlap. -/
def overlapAlignment : Alignment :=
  { talk_id := { value := "overlap" }, language := Language.spanish,
    segments := [segA, segB] }

/-- A segment 0.0 to 1.0 with no words. -/
def segG0 : SegmentAlignment :=
  { segment_id := "seg-G0", text := "", start_time := 0, end_time := 1,
    words := [] }

/-- A segment 2.0 to 3.0, separated from `segG0` by a gap. -/
def segG1 : SegmentAlignment :=
  { segment_id := "seg-G1", text := "", start_time := 2, end_time := 3,
    words := [] }

/-- A well-formed alignment with a silence gap between its two segments. -/
def gapAlignment : Alignment :=
  { talk_id := { value := "gap" }, language := Language.german,
    segments := [segG0, segG1] }

/-- A malformed alignment: a non-monotonic segment (start 5 after end 1),
then two overlapping segments, all with empty word lists. -/
def malformedAlignment : Alignment :=
  { talk_id := { value := "malformed" }, language := Language.czech,
    segments :=
      [{ segment_id := "m0", text := "", start_time := 5, end_time := 1,
         words := [] },
       { segment_id := "m1", text := "", start_time := 0, end_time := 4,
         words := [] },
       { segment_id := "m2", text := "", start_time := 2, end_time := 6,
         words := [] }] }

/-! ### Claims C4, C5, C6, C10 -/

/-- C6: whenever no segment of the alignment has a closed interval
containing `t` — which covers the empty-segments case, times before the
first segment, after the last, and times in a gap between segments —
`find_segment_at_time t` returns `none`. -/
theorem c6_no_containing_segment_not_found (a : Alignment) (t : ℚ)
    (h : ∀ s ∈ a.segments, ¬ s.containsTime t) :
    a.find_segment_at_time t = none :=
  (findFirst_eq_none_iff _ _).mpr h

/-- Witness for C6: the empty alignment misses every time, and a time in
the gap of `gapAlignment` as well as a time beyond its last segment both
come back `none`. -/
theorem c6_no_containing_segment_not_found_witness :
    emptyAlignment.find_segment_at_time 1 = none ∧
    gapAlignment.find_segment_at_time 1.5 = none ∧
    gapAlignment.find_segment_at_time 7 = none :=
  ⟨c6_no_containing_segment_not_found emptyAlignment 1
      (by simp [emptyAlignment]),
   c6_no_containing_segment_not_found gapAlignment 1.5
      (by norm_num [gapAlignment, segG0, segG1, SegmentAlignment.containsTime]),
   c6_no_containing_segment_not_found gapAlignment 7
      (by norm_num [gapAlignment, segG0, segG1, SegmentAlignment.containsTime])⟩

/-- C5: the three query operations are total functions into `Option`
(nothing to raise), and each returns `none` exactly in the advertised
no-match situations, for every rational time and every alignment,
malformed ones included. -/
theorem c5_none_exactly_on_no_match (a : Alignment) (t : ℚ) :
    (a.find_segment_at_time t = none ↔ ∀ s ∈ a.segments, ¬ s.containsTime t) ∧
    (a.get_segment_index_at_time t = none ↔
      ∀ s ∈ a.segments, ¬ s.containsTime t) ∧
    (a.find_word_at_time t = none ↔
      a.find_segment_at_time t = none ∨
      ∃ s, a.find_segment_at_time t = some s ∧
        ∀ w ∈ s.words, ¬ w.containsTime t) := by
  refine ⟨findFirst_eq_none_iff _ _,
    (findFirstIdx_eq_none_iff _ _ _).trans (findFirst_eq_none_iff _ _), ?_⟩
  cases h : a.find_segment_at_time t with
  | none => simp [Alignment.find_word_at_time, h]
  | some s =>
    simp [Alignment.find_word_at_time, h, findFirst_eq_none_iff]

/-- Witness for C5: on the malformed alignment (non-monotonic first
segment, overlapping later segments) a negative query time yields `none`
from all three operations. -/
theorem c5_none_exactly_on_no_match_witness :
    malformedAlignment.find_segment_at_time (-5) = none ∧
    malformedAlignment.get_segment_index_at_time (-5) = none ∧
    malformedAlignment.find_word_at_time (-5) = none := by
  have h := c5_none_exactly_on_no_match malformedAlignment (-5)
  have hno : ∀ s ∈ malformedAlignment.segments,
      ¬ s.containsTime (-(5 : ℚ)) := by
    norm_num [malformedAlignment, SegmentAlignment.containsTime]
  exact ⟨h.1.mpr hno, h.2.1.mpr hno, h.2.2.mpr (Or.inl (h.1.mpr hno))⟩

/-- C4: `get_segment_index_at_time` agrees with `find_segment_at_time`:
both are `none` together, and a returned index `i` is in bounds with
`segments[i]` being exactly the segment `find_segment_at_time` returns. -/
theorem c4_index_agrees_with_find (a : Alignment) (t : ℚ) :
    (a.get_segment_index_at_time t = none ↔
      a.find_segment_at_time t = none) ∧
    (∀ i, a.get_segment_index_at_time t = some i →
      ∃ hi : i < a.segments.length,
        a.find_segment_at_time t = some (a.segments.get ⟨i, hi⟩)) := by
  refine ⟨findFirstIdx_eq_none_iff _ _ _, ?_⟩
  intro i h
  obtain ⟨k, hk, hik, hfind⟩ := findFirstIdx_some _ _ _ _ h
  have hk2 : i < a.segments.length := by omega
  refine ⟨hk2, ?_⟩
  have : i = k := by omega
  subst this
  exact hfind

/-- Witness for C4: on the worked scenario, index 1 at time 3.0 matches
the segment returned by `find_segment_at_time`. -/
theorem c4_index_agrees_with_find_witness :
    ∃ hi : 1 < sampleAlignment.segments.length,
      sampleAlignment.find_segment_at_time 3 =
        some (sampleAlignment.segments.get ⟨1, hi⟩) :=
  (c4_index_agrees_with_find sampleAlignment 3).2 1
    (by norm_num [Alignment.get_segment_index_at_time, findFirstIdx,
      SegmentAlignment.containsTime, sampleAlignment, seg000, seg001])

/-- C10: any segment returned by `find_segment_at_time t` or selected by
`get_segment_index_at_time t`, and any word returned by
`find_word_at_time t`, has a closed interval containing `t`; hence its
`start_time` never strictly exceeds its `end_time`. -/
theorem c10_results_contain_query_time (a : Alignment) (t : ℚ) :
    (∀ s, a.find_segment_at_time t = some s →
      s.start_time ≤ t ∧ t ≤ s.end_time ∧ s.start_time ≤ s.end_time) ∧
    (∀ i, a.get_segment_index_at_time t = some i →
      ∃ hi : i < a.segments.length,
        (a.segments.get ⟨i, hi⟩).start_time ≤ t ∧
        t ≤ (a.segments.get ⟨i, hi⟩).end_time ∧
        (a.segments.get ⟨i, hi⟩).start_time ≤
          (a.segments.get ⟨i, hi⟩).end_time) ∧
    (∀ w, a.find_word_at_time t = some w →
      w.start_time ≤ t ∧ t ≤ w.end_time ∧ w.start_time ≤ w.end_time) := by
  refine ⟨?_, ?_, ?_⟩
  · intro s h
    obtain ⟨⟨h1, h2⟩, _⟩ := findFirst_some_sat _ _ _ h
    exact ⟨h1, h2, h1.trans h2⟩
  · intro i h
    obtain ⟨k, hk, hik, hfind⟩ := findFirstIdx_some _ _ _ _ h
    have hi : i < a.segments.length := by omega
    have hik0 : i = k := by omega
    subst hik0
    obtain ⟨⟨h1, h2⟩, _⟩ := findFirst_some_sat _ _ _ hfind
    exact ⟨hi, h1, h2, h1.trans h2⟩
  · intro w h
    rw [Alignment.find_word_at_time] at h
    cases hseg : a.find_segment_at_time t with
    | none => rw [hseg] at h; exact absurd h (by simp)
    | some s =>
      rw [hseg] at h
      obtain ⟨⟨h1, h2⟩, _⟩ := findFirst_some_sat _ _ _ h
      exact ⟨h1, h2, h1.trans h2⟩

/-- Witness for C10: at time 1.0 the worked scenario returns the word
"world", whose interval indeed contains 1.0. -/
theorem c10_results_contain_query_time_witness :
    worldWord.start_time ≤ 1 ∧ (1 : ℚ) ≤ worldWord.end_time ∧
    worldWord.start_time ≤ worldWord.end_time :=
  (c10_results_contain_query_time sampleAlignment 1).2.2 worldWord
    (by norm_num [Alignment.find_word_at_time, Alignment.find_segment_at_time,
      findFirst, SegmentAlignment.containsTime, WordAlignment.containsTime,
      sampleAlignment, seg000, seg001, helloWord, worldWord])


/-! ### Claims C2, C3 and C1 -/

/-- C2: when two segments A (earlier in sequence) and B both contain the
query time, `find_segment_at_time` deterministically returns the earliest
segment in sequence order whose interval contains the time — an index
`k ≤ i` before which no segment matches. -/
theorem c2_first_match_wins (a : Alignment) (t : ℚ) (i j : ℕ)
    (hij : i < j) (hj : j < a.segments.length)
    (hA : (a.segments.get ⟨i, hij.trans hj⟩).containsTime t)
    (hB : (a.segments.get ⟨j, hj⟩).containsTime t) :
    ∃ k, ∃ hk : k < a.segments.length, k ≤ i ∧
      (a.segments.get ⟨k, hk⟩).containsTime t ∧
      (∀ m, ∀ hm : m < k, ¬ (a.segments.get ⟨m, hm.trans hk⟩).containsTime t) ∧
      a.find_segment_at_time t = some (a.segments.get ⟨k, hk⟩) := by
  cases hfind : a.find_segment_at_time t with
  | none =>
    have hfind0 : findFirst (fun s => s.containsTime t) a.segments = none :=
      hfind
    have hnone := (findFirst_eq_none_iff
      (fun s => s.containsTime t) a.segments).mp hfind0
    exact absurd hA (hnone _ (List.get_mem _ _ _))
  | some x =>
    have hfind0 : findFirst (fun s => s.containsTime t) a.segments = some x :=
      hfind
    obtain ⟨k, hk, hget, hp, hmin⟩ := findFirst_some_first _ _ _ hfind0
    have hki : k ≤ i := by
      by_contra hgt
      push_neg at hgt
      exact hmin i hgt hA
    have hpk : (a.segments.get ⟨k, hk⟩).containsTime t := by
      rw [hget]; exact hp
    refine ⟨k, hk, hki, hpk, hmin, ?_⟩
    rw [hget]

/-- Witness for C2: in `overlapAlignment` both `segA` (index 0) and
`segB` (index 1) contain time 2.0; the scan settles on index 0. -/
theorem c2_first_match_wins_witness :
    ∃ k, ∃ hk : k < overlapAlignment.segments.length, k ≤ 0 ∧
      (overlapAlignment.segments.get ⟨k, hk⟩).containsTime 2 ∧
      (∀ m, ∀ hm : m < k,
        ¬ (overlapAlignment.segments.get ⟨m, hm.trans hk⟩).containsTime 2) ∧
      overlapAlignment.find_segment_at_time 2 =
        some (overlapAlignment.segments.get ⟨k, hk⟩) :=
  c2_first_match_wins overlapAlignment 2 0 1 (by norm_num)
    (by norm_num [overlapAlignment])
    (by simp [overlapAlignment, segA, SegmentAlignment.containsTime]; norm_num)
    (by simp [overlapAlignment, segB, SegmentAlignment.containsTime]; norm_num)

/-- C3: `find_word_at_time` propagates a segment miss as `none`; on a
segment hit it misses exactly when no word of that segment contains the
time (intra-segment gaps included), and otherwise returns the first word
of the matched segment whose closed interval contains the time. -/
theorem c3_word_lookup (a : Alignment) (t : ℚ) :
    (a.find_segment_at_time t = none → a.find_word_at_time t = none) ∧
    (∀ s, a.find_segment_at_time t = some s →
      ((∀ w ∈ s.words, ¬ w.containsTime t) → a.find_word_at_time t = none) ∧
      (∀ w, a.find_word_at_time t = some w → w ∈ s.words ∧ w.containsTime t) ∧
      (∀ k, ∀ hk : k < s.words.length,
        (s.words.get ⟨k, hk⟩).containsTime t →
        (∀ w ∈ s.words.take k, ¬ w.containsTime t) →
        a.find_word_at_time t = some (s.words.get ⟨k, hk⟩))) := by
  constructor
  · intro h
    simp [Alignment.find_word_at_time, h]
  · intro s hs
    refine ⟨?_, ?_, ?_⟩
    · intro hno
      simp only [Alignment.find_word_at_time, hs]
      exact (findFirst_eq_none_iff _ _).mpr hno
    · intro w hw
      simp only [Alignment.find_word_at_time, hs] at hw
      obtain ⟨hp, hm⟩ := findFirst_some_sat _ _ _ hw
      exact ⟨hm, hp⟩
    · intro k hk hcont hmin
      simp only [Alignment.find_word_at_time, hs]
      exact findFirst_eq_some_of_first _ _ k hk hcont hmin

/-- Witness for C3: in the worked scenario, time 0.0 hits `seg-000` and
its first word "Hello", while time 0.55 hits `seg-000` but falls in the
gap between its words, so the word lookup returns `none`. -/
theorem c3_word_lookup_witness :
    sampleAlignment.find_word_at_time 0 = some helloWord ∧
    sampleAlignment.find_word_at_time 0.55 = none := by
  have hseg0 : sampleAlignment.find_segment_at_time 0 = some seg000 := by
    norm_num [Alignment.find_segment_at_time, findFirst,
      SegmentAlignment.containsTime, sampleAlignment, seg000]
  have hseg55 : sampleAlignment.find_segment_at_time 0.55 = some seg000 := by
    norm_num [Alignment.find_segment_at_time, findFirst,
      SegmentAlignment.containsTime, sampleAlignment, seg000]
  constructor
  · have h := ((c3_word_lookup sampleAlignment 0).2 seg000 hseg0).2.2 0
      (by norm_num [seg000])
      (by simp [seg000, helloWord, WordAlignment.containsTime]; norm_num)
      (by simp)
    simpa [seg000, helloWord] using h
  · exact ((c3_word_lookup sampleAlignment 0.55).2 seg000 hseg55).1
      (by norm_num [seg000, helloWord, worldWord, WordAlignment.containsTime])

/-- Counterexample to C1 as stated: in `overlapAlignment` the segment
`segB` (2.0 to 3.0) is well-formed and present, yet
`find_segment_at_time segB.start_time` returns the earlier overlapping
`segA`, not `segB`. -/
theorem c1_counterexample :
    segB ∈ overlapAlignment.segments ∧
    segB.start_time ≤ segB.end_time ∧
    ¬ overlapAlignment.find_segment_at_time segB.start_time = some segB := by
  refine ⟨by simp [overlapAlignment], by norm_num [segB], ?_⟩
  have hA : overlapAlignment.find_segment_at_time segB.start_time =
      some segA := by
    norm_num [Alignment.find_segment_at_time, findFirst, overlapAlignment,
      segA, segB, SegmentAlignment.containsTime]
  rw [hA]
  simp [segA, segB]

/-- C1 amended: for a segment `s = segments[i]` with
`start_time ≤ end_time`, provided no EARLIER segment's closed interval
already contains the queried boundary time (which first-match scanning
would otherwise prefer), `find_segment_at_time` returns `s` both at
`s.start_time` and at `s.end_time`. -/
theorem c1_boundary_lookup (a : Alignment) (i : ℕ)
    (hi : i < a.segments.length)
    (hmono : (a.segments.get ⟨i, hi⟩).start_time ≤
      (a.segments.get ⟨i, hi⟩).end_time)
    (hstart : ∀ s ∈ a.segments.take i,
      ¬ s.containsTime (a.segments.get ⟨i, hi⟩).start_time)
    (hend : ∀ s ∈ a.segments.take i,
      ¬ s.containsTime (a.segments.get ⟨i, hi⟩).end_time) :
    a.find_segment_at_time (a.segments.get ⟨i, hi⟩).start_time =
      some (a.segments.get ⟨i, hi⟩) ∧
    a.find_segment_at_time (a.segments.get ⟨i, hi⟩).end_time =
      some (a.segments.get ⟨i, hi⟩) := by
  constructor
  · exact findFirst_eq_some_of_first _ _ i hi ⟨le_refl _, hmono⟩ hstart
  · exact findFirst_eq_some_of_first _ _ i hi ⟨hmono, le_refl _⟩ hend

/-- Witness for the amended C1: in `gapAlignment`, whose segments do not
overlap, both boundaries of the second segment `segG1` resolve to
`segG1` itself. -/
theorem c1_boundary_lookup_witness :
    gapAlignment.find_segment_at_time 2 = some segG1 ∧
    gapAlignment.find_segment_at_time 3 = some segG1 := by
  have h := c1_boundary_lookup gapAlignment 1
    (by norm_num [gapAlignment])
    (by simp [gapAlignment, segG0, segG1]; norm_num)
    (by simp [gapAlignment, segG0, segG1, SegmentAlignment.containsTime])
    (by simp [gapAlignment, segG0, segG1, SegmentAlignment.containsTime])
  simpa [gapAlignment, segG0, segG1] using h


/-! ### Claim C8: the queries as state transformers

The Python methods execute against the object `self`.  To state the
frame property we translate each method a second time in state-passing
style: the method body is threaded through an explicit state, and every
field read takes the current state; since no statement of the bodies
assigns to `self` or performs I/O, the translation returns the state it
was given, which is exactly what the theorem checks against the original
state. -/

/-- State-passing form of the `for ... return first match` loop: the
loop body only reads, so the state `st` is threaded unchanged. -/
def findFirstRun {α σ : Type _} (p : α → Prop) [DecidablePred p] :
    List α → σ → Option α × σ
  | [], st => (none, st)
  | x :: rest, st => if p x then (some x, st) else findFirstRun p rest st

/-- State-passing form of the `for i, x in enumerate(...)` loop. -/
def findFirstIdxRun {α σ : Type _} (p : α → Prop) [DecidablePred p] :
    Nat → List α → σ → Option Nat × σ
  | _, [], st => (none, st)
  | i, x :: rest, st =>
    if p x then (some i, st) else findFirstIdxRun p (i + 1) rest st

/-- `find_segment_at_time` as a state transformer on the alignment. -/
def Alignment.find_segment_at_time_run (self : Alignment) (time : ℚ) :
    Option SegmentAlignment × Alignment :=
  findFirstRun (fun segment => segment.containsTime time) self.segments self

/-- `find_word_at_time` as a state transformer on the alignment: it first
runs the segment lookup against the state, then the word loop. -/
def Alignment.find_word_at_time_run (self : Alignment) (time : ℚ) :
    Option WordAlignment × Alignment :=
  match self.find_segment_at_time_run time with
  | (none, st) => (none, st)
  | (some segment, st) =>
    findFirstRun (fun word => word.containsTime time) segment.words st

/-- `get_segment_index_at_time` as a state transformer on the alignment. -/
def Alignment.get_segment_index_at_time_run (self : Alignment) (time : ℚ) :
    Option Nat × Alignment :=
  findFirstIdxRun (fun segment => segment.containsTime time) 0
    self.segments self

theorem findFirstRun_eq {α σ : Type _} (p : α → Prop) [DecidablePred p]
    (l : List α) (st : σ) : findFirstRun p l st = (findFirst p l, st) := by
  induction l with
  | nil => rfl
  | cons x rest ih =>
    by_cases hx : p x <;> simp [findFirstRun, findFirst, hx, ih]

theorem findFirstIdxRun_eq {α σ : Type _} (p : α → Prop) [DecidablePred p]
    (i : Nat) (l : List α) (st : σ) :
    findFirstIdxRun p i l st = (findFirstIdx p i l, st) := by
  induction l generalizing i with
  | nil => rfl
  | cons x rest ih =>
    by_cases hx : p x <;> simp [findFirstIdxRun, findFirstIdx, hx, ih]

/-- C8: executing any of the three query operations leaves the alignment
state — `talk_id`, `language` and the whole `segments` sequence —
unchanged, and the value produced is the one computed by the pure
reading of the operation: the queries are side-effect-free reads. -/
theorem c8_queries_are_pure_reads (a : Alignment) (t : ℚ) :
    (a.find_segment_at_time_run t).2 = a ∧
    (a.find_word_at_time_run t).2 = a ∧
    (a.get_segment_index_at_time_run t).2 = a ∧
    (a.find_segment_at_time_run t).1 = a.find_segment_at_time t ∧
    (a.find_word_at_time_run t).1 = a.find_word_at_time t ∧
    (a.get_segment_index_at_time_run t).1 = a.get_segment_index_at_time t := by
  have hseg : a.find_segment_at_time_run t =
      (a.find_segment_at_time t, a) :=
    findFirstRun_eq _ _ _
  have hword : a.find_word_at_time_run t = (a.find_word_at_time t, a) := by
    rw [Alignment.find_word_at_time_run, hseg]
    cases h : a.find_segment_at_time t with
    | none => simp [Alignment.find_word_at_time, h]
    | some s => simp [Alignment.find_word_at_time, h, findFirstRun_eq]
  have hidx : a.get_segment_index_at_time_run t =
      (a.get_segment_index_at_time t, a) :=
    findFirstIdxRun_eq _ _ _ _
  rw [hseg, hword, hidx]
  exact ⟨rfl, rfl, rfl, rfl, rfl, rfl⟩

/-! ### Claim C9: the parsing boundary

Embedding of `FileAlignmentRepository._parse_alignment`
(`talk_storage.py` lines 268-299).  A raw word entry is a JSON object:
`word`, `start_time` and `end_time` are read with mandatory indexing
(`w["word"]` etc.), while `confidence` is read with
`w.get("confidence", 1.0)`, so only the latter is optional in the
embedding. -/

/-- A raw word object of `alignment.json`; `confidence` may be absent. -/
structure WordEntry where
  word : String
  start_time : ℚ
  end_time : ℚ
  confidence : Option ℚ
deriving DecidableEq, Repr

/-- A raw segment object of `alignment.json`. -/
structure SegmentEntry where
  segment_id : String
  text : String
  start_time : ℚ
  end_time : ℚ
  words : List WordEntry
deriving DecidableEq, Repr

/-- The raw alignment JSON document (its `segments` array). -/
structure AlignmentData where
  segments : List SegmentEntry
deriving DecidableEq, Repr

/-- The `WordAlignment(...)` construction inside `_parse_alignment`:
`confidence=w.get("confidence", 1.0)`, other fields indexed directly. -/
def parseWordEntry (w : WordEntry) : WordAlignment :=
  { word := w.word, start_time := w.start_time, end_time := w.end_time,
    confidence := w.confidence.getD 1 }

/-- The `SegmentAlignment(...)` construction inside `_parse_alignment`. -/
def parseSegmentEntry (s : SegmentEntry) : SegmentAlignment :=
  { segment_id := s.segment_id, text := s.text, start_time := s.start_time,
    end_time := s.end_time, words := s.words.map parseWordEntry }

/-- Embedding of `FileAlignmentRepository._parse_alignment`: builds an
`Alignment` from the raw JSON structure. -/
def parse_alignment (talk_id : TalkId) (language : Language)
    (data : AlignmentData) : Alignment :=
  { talk_id := talk_id, language := language,
    segments := data.segments.map parseSegmentEntry }

/-- C9: for every word entry of the input (located as entry `j` of
segment `i`), the parsed alignment holds at the same position a word
whose `word`, `start_time` and `end_time` are carried through verbatim,
whose confidence is exactly 1.0 when the entry lacks one, and whose
confidence is the entry's value unchanged when present. -/
theorem c9_confidence_defaults_to_one (talk_id : TalkId)
    (language : Language) (data : AlignmentData) (i j : ℕ) (w : WordEntry)
    (hw : (data.segments[i]?).bind (fun s => s.words[j]?) = some w) :
    ∃ pw : WordAlignment,
      ((parse_alignment talk_id language data).segments[i]?).bind
        (fun s => s.words[j]?) = some pw ∧
      pw.word = w.word ∧ pw.start_time = w.start_time ∧
      pw.end_time = w.end_time ∧
      (w.confidence = none → pw.confidence = 1) ∧
      (∀ c : ℚ, w.confidence = some c → pw.confidence = c) := by
  cases hs : data.segments[i]? with
  | none => rw [hs] at hw; exact absurd hw (by simp)
  | some s =>
    rw [hs] at hw
    simp only [Option.some_bind] at hw
    refine ⟨parseWordEntry w, ?_, rfl, rfl, rfl, ?_, ?_⟩
    · have hmap : (parse_alignment talk_id language data).segments[i]? =
          some (parseSegmentEntry s) := by
        simp [parse_alignment, List.getElem?_map, hs]
      rw [hmap]
      simp [parseSegmentEntry, List.getElem?_map, hw]
    · intro hnone
      simp [parseWordEntry, hnone]
    · intro c hc
      simp [parseWordEntry, hc]

/-- A raw entry for the word "Hello" with no confidence field. -/
def helloEntry : WordEntry :=
  { word := "Hello", start_time := 0, end_time := 0.5, confidence := none }

/-- A raw one-segment entry containing only `helloEntry`. -/
def sampleSegmentEntry : SegmentEntry :=
  { segment_id := "seg-000", text := "Hello", start_time := 0,
    end_time := 2.5, words := [helloEntry] }

/-- A raw one-segment document containing only `sampleSegmentEntry`. -/
def sampleData : AlignmentData :=
  { segments := [sampleSegmentEntry] }

/-- Witness for C9: parsing a document whose only word entry lacks a
confidence field yields that word with confidence exactly 1.0. -/
theorem c9_confidence_defaults_to_one_witness :
    ∃ pw : WordAlignment,
      ((parse_alignment { value := "t" } Language.english
          sampleData).segments[0]?).bind
        (fun s => s.words[0]?) = some pw ∧
      pw.word = helloEntry.word ∧ pw.start_time = helloEntry.start_time ∧
      pw.end_time = helloEntry.end_time ∧
      (helloEntry.confidence = none → pw.confidence = 1) ∧
      (∀ c : ℚ, helloEntry.confidence = some c → pw.confidence = c) :=
  c9_confidence_defaults_to_one { value := "t" } Language.english
    sampleData 0 0 helloEntry (by simp [sampleData, sampleSegmentEntry])

end GLS
